import Mathlib

/-!
Verification of the blame-output comparison engine of gix-scripts
(src/main.rs).  Rust strings are modelled as lists of characters.  The two
regular expressions (GIT_BLAME_RE, GIX_BLAME_RE) are modelled by a small
backtracking matcher with leftmost-first, greedy semantics, which is the
semantics the rust regex crate gives these patterns; Unicode character
classes are restricted to their ASCII parts, which is all that hex blame
output exercises.
-/

/-- Rust `String` / `&str`, modelled as a list of characters. -/
abbrev Str := List Char

/-- The character list of a string literal. -/
def str (s : String) : Str := s.data

/-- The character class `[0-9a-f]`. -/
def hexDigit (c : Char) : Bool :=
  (decide ('0' ≤ c) && decide (c ≤ '9')) || (decide ('a' ≤ c) && decide (c ≤ 'f'))

/-- The character class `\d` (ASCII part). -/
def digitChar (c : Char) : Bool := decide ('0' ≤ c) && decide (c ≤ '9')

/-- The character class `\s` (ASCII part). -/
def spaceChar (c : Char) : Bool :=
  c == ' ' || c == '\t' || c == '\n' || c == Char.ofNat 11 || c == Char.ofNat 12 || c == '\r'

/-- The character class `\S` (complement of `\s`). -/
def nonSpaceChar (c : Char) : Bool := !spaceChar c

/-- The character class `[^(^)]`. -/
def notParenCaret (c : Char) : Bool := !(c == '(' || c == '^' || c == ')')

/-- The class `.` — any character except a newline. -/
def dotChar (c : Char) : Bool := c != '\n'

/-- Regular-expression syntax, covering the constructs of the two patterns
in main.rs: literal characters, character classes, concatenation,
alternation (left-preferring), greedy Kleene star and capture groups. -/
inductive RE where
  | eps : RE
  | chr : Char → RE
  | cls : (Char → Bool) → RE
  | seq : RE → RE → RE
  | alt : RE → RE → RE
  | star : RE → RE
  | group : Nat → RE → RE

/-- `r?` — greedy option, prefers matching `r`. -/
def opt (r : RE) : RE := .alt r .eps

/-- `r+` — greedy, one or more. -/
def plus (r : RE) : RE := .seq r (.star r)

/-- Capture environment: group number paired with the captured substring;
the most recent capture of a group is consed at the front. -/
abbrev Caps := List (Nat × Str)

/-- Backtracking matcher in continuation-passing style.  `mrun fuel r s caps k`
tries to match `r` against a front part of `s`, threading the capture
environment, and calls the continuation `k` on the rest of the input;
alternatives are tried left first and stars greedily, which is the match
preference order of the rust regex crate.  `fuel` bounds the recursion depth
(pattern depth plus star iterations); it is chosen large enough by
`captures` below. -/
def mrun : Nat → RE → Str → Caps → (Str → Caps → Option Caps) → Option Caps
  | 0, _, _, _, _ => none
  | fuel + 1, r, s, caps, k =>
    match r with
    | .eps => k s caps
    | .chr c =>
      match s with
      | [] => none
      | c' :: rest => if c' = c then k rest caps else none
    | .cls p =>
      match s with
      | [] => none
      | c' :: rest => if p c' then k rest caps else none
    | .seq r1 r2 => mrun fuel r1 s caps (fun s' caps' => mrun fuel r2 s' caps' k)
    | .alt r1 r2 =>
      match mrun fuel r1 s caps k with
      | some res => some res
      | none => mrun fuel r2 s caps k
    | .star r1 =>
      match mrun fuel r1 s caps (fun s' caps' =>
          if s'.length < s.length then mrun fuel (.star r1) s' caps' k else none) with
      | some res => some res
      | none => k s caps
    | .group n r1 =>
      mrun fuel r1 s caps (fun s' caps' =>
        k s' ((n, s.take (s.length - s'.length)) :: caps'))

/-- Fuel that is ample for the patterns of main.rs: recursion depth is
bounded by the pattern depth plus one per star iteration, and every star in
the two patterns consumes at least one character per iteration. -/
def mfuel (s : Str) : Nat := s.length + 50

/-- Try to match `r` at each start position of `s`, leftmost first — the
unanchored search performed by `Regex::captures` in the rust regex crate. -/
def captures_from (r : RE) : Str → Option Caps
  | [] => mrun 50 r [] [] (fun _ caps => some caps)
  | c :: rest =>
    match mrun (mfuel (c :: rest)) r (c :: rest) [] (fun _ caps => some caps) with
    | some caps => some caps
    | none => captures_from r rest

/-- Models `Regex::captures`: the capture groups of the leftmost-first
match, or `none` when the pattern matches nowhere in the line. -/
def captures (r : RE) (s : Str) : Option Caps := captures_from r s

/-- Models `&captures[i]`: the text of capture group `i`.  In both patterns
group 1 is mandatory, so the default never fires on a successful match. -/
def capture_get (caps : Caps) (n : Nat) : Str := (caps.lookup n).getD []

/-- GIT_BLAME_RE (main.rs:33–34):
`\^?([0-9a-f]+) (?:([^(^)]+)\s+)?(\(.* \d+\)) (.*)`. -/
def GIT_BLAME_RE : RE :=
  .seq (opt (.chr '^'))
    (.seq (.group 1 (plus (.cls hexDigit)))
      (.seq (.chr ' ')
        (.seq (opt (.seq (.group 2 (plus (.cls notParenCaret))) (plus (.cls spaceChar))))
          (.seq (.group 3 (.seq (.chr '(')
              (.seq (.star (.cls dotChar))
                (.seq (.chr ' ') (.seq (plus (.cls digitChar)) (.chr ')'))))))
            (.seq (.chr ' ') (.group 4 (.star (.cls dotChar))))))))

/-- GIX_BLAME_RE (main.rs:36–37):
`([0-9a-f]+) (\d+) (?:\S+ )?(\d+) (.*)`. -/
def GIX_BLAME_RE : RE :=
  .seq (.group 1 (plus (.cls hexDigit)))
    (.seq (.chr ' ')
      (.seq (.group 2 (plus (.cls digitChar)))
        (.seq (.chr ' ')
          (.seq (opt (.seq (plus (.cls nonSpaceChar)) (.chr ' ')))
            (.seq (.group 3 (plus (.cls digitChar)))
              (.seq (.chr ' ') (.group 4 (.star (.cls dotChar)))))))))

/-- Rust `a.starts_with(b)`: `b` is a front part of `a`. -/
def starts_with (a b : Str) : Bool := List.isPrefixOf b a

/-- The Hash Compatibility Check (spec §4.3): two revision identifiers are
compatible iff one starts with the other, exactly the test negated at
main.rs:303–305. -/
def hashes_compatible (a b : Str) : Bool := starts_with a b || starts_with b a

/-- The Outcome enum (main.rs:179–191). -/
inductive Outcome where
  | DifferingLineNumbers : Outcome
  | BlamesMatch : (number_of_matching_lines : Nat) → Outcome
  | LineDidNotMatchPattern : Outcome
  | LinesPartiallyMatched :
      (number_of_matching_lines : Nat) → (non_matching_lines : List Nat) → Outcome
  | FailedToRunExecutable : Outcome
deriving DecidableEq, Repr

/-- The for loop of compare_two_blames (main.rs:287–321): walk the
positionally paired lines carrying the current line number, the count of
matching lines and the list of non-matching line numbers (a Vec push is an
append at the back); a line that fails its pattern aborts the whole file. -/
def compareLoop (br cr : RE) :
    List (Str × Str) → Nat → Nat → List Nat → Outcome
  | [], _, number_of_matching_lines, non_matching_lines =>
    if non_matching_lines.isEmpty then
      .BlamesMatch number_of_matching_lines
    else
      .LinesPartiallyMatched number_of_matching_lines non_matching_lines
  | (baseline_line, comparison_line) :: rest,
      line_number, number_of_matching_lines, non_matching_lines =>
    match captures br baseline_line with
    | none => .LineDidNotMatchPattern
    | some baseline_captures =>
      match captures cr comparison_line with
      | none => .LineDidNotMatchPattern
      | some comparison_captures =>
        let baseline_hash := capture_get baseline_captures 1
        let comparison_hash := capture_get comparison_captures 1
        if !starts_with baseline_hash comparison_hash
            && !starts_with comparison_hash baseline_hash then
          compareLoop br cr rest (line_number + 1) number_of_matching_lines
            (non_matching_lines ++ [line_number])
        else
          compareLoop br cr rest (line_number + 1) (number_of_matching_lines + 1)
            non_matching_lines

/-- compare_two_blames (main.rs:226–322), after the two external process
invocations: the input line lists are the captured outputs already split
into lines (`ExecutionFailure` arises only from the process boundary, which
is outside this pure core). -/
def compare_two_blames (br cr : RE)
    (baseline_lines comparison_lines : List Str) : Outcome :=
  if baseline_lines.length ≠ comparison_lines.length then
    .DifferingLineNumbers
  else
    compareLoop br cr (baseline_lines.zip comparison_lines) 0 0 []

/-- The Blame Line Parser: group 1 of the pattern applied to one line, or
`none` on parse failure. -/
def parseHash (re : RE) (line : Str) : Option Str :=
  (captures re line).map (fun caps => capture_get caps 1)

/-- The revision identifier a line parses to (meaningful when the parse
succeeds). -/
def hashOf (re : RE) (line : Str) : Str :=
  match captures re line with
  | some caps => capture_get caps 1
  | none => []

/-- Whether a positional pair of lines agrees under the Hash Compatibility
Check (meaningful when both parses succeed). -/
def pairCompat (br cr : RE) (p : Str × Str) : Bool :=
  hashes_compatible (hashOf br p.1) (hashOf cr p.2)

/-- The 0-based positions (starting at offset `i`) at which the Hash
Compatibility Check fails. -/
def mismIdx (br cr : RE) : Nat → List (Str × Str) → List Nat
  | _, [] => []
  | i, p :: rest =>
    if pairCompat br cr p then mismIdx br cr (i + 1) rest
    else i :: mismIdx br cr (i + 1) rest

/-- The number of positional pairs that agree under the Hash Compatibility
Check. -/
def nCompat (br cr : RE) : List (Str × Str) → Nat
  | [] => 0
  | p :: rest => (if pairCompat br cr p then 1 else 0) + nCompat br cr rest

/-- Whether every positional pair of lines parses on both sides. -/
def all_lines_parse (br cr : RE) (pairs : List (Str × Str)) : Bool :=
  pairs.all (fun p => (captures br p.1).isSome && (captures cr p.2).isSome)

/-- A non-empty string of lowercase hex digits — the §3 invariant on parsed
revision identifiers. -/
def isHexStr (s : Str) : Bool := !s.isEmpty && s.all hexDigit

/-- One step of the aggregation fold of main (main.rs:155–170). -/
def line_counters_step (acc : Nat × Nat) (outcome : Outcome) : Nat × Nat :=
  match outcome with
  | .BlamesMatch number_of_matching_lines => (acc.1 + number_of_matching_lines, acc.2)
  | .LinesPartiallyMatched number_of_matching_lines non_matching_lines =>
      (acc.1 + number_of_matching_lines, acc.2 + non_matching_lines.length)
  | _ => acc

/-- The aggregation fold of main (main.rs:155–170): total matching lines and
total non-matching lines over all per-file outcomes. -/
def line_counters (outcomes : List Outcome) : Nat × Nat :=
  outcomes.foldl line_counters_step (0, 0)

/-- Whether an outcome is `BlamesMatch { .. }` (the `matches!` test of
main.rs:121 and main.rs:143). -/
def is_blames_match (outcome : Outcome) : Bool :=
  match outcome with
  | .BlamesMatch _ => true
  | _ => false

/-- main.rs:119–122: the number of outcomes that are `BlamesMatch`. -/
def number_of_matches (outcomes : List Outcome) : Nat :=
  (outcomes.filter (fun outcome => is_blames_match outcome)).length

/-- main.rs:123: the number of outcomes that are not `BlamesMatch`. -/
def number_of_non_matches (outcomes : List Outcome) : Nat :=
  outcomes.length - number_of_matches outcomes

/-- main.rs:125–176: the summary block — and with it the percentage at
main.rs:173 — is reached exactly when `number_of_non_matches` is nonzero;
there is no further guard on the percentage computation. -/
def percentage_is_computed (outcomes : List Outcome) : Bool :=
  number_of_non_matches outcomes != 0

/-- The percentage expression of main.rs:172–173, with the f32 arithmetic
modelled exactly over ℚ (the f32 case 0/0, a NaN, has no ℚ counterpart; the
guard question is treated separately via `percentage_is_computed`). -/
def percentage (number_of_matching_lines all_lines : Nat) : ℚ :=
  (number_of_matching_lines : ℚ) / (all_lines : ℚ) * 100

/-- Spec-side reading (§4.5): the matching-line contribution of one outcome
— its `matchingLineCount` for `Matched` and `PartiallyMatched`, zero for
every other kind. -/
def spec_matching_lines (outcome : Outcome) : Nat :=
  match outcome with
  | .BlamesMatch number_of_matching_lines => number_of_matching_lines
  | .LinesPartiallyMatched number_of_matching_lines _ => number_of_matching_lines
  | _ => 0

/-- Spec-side reading (§4.5): the mismatched-line contribution of one
outcome — the mismatch-list length for `PartiallyMatched`, zero for every
other kind. -/
def spec_mismatched_lines (outcome : Outcome) : Nat :=
  match outcome with
  | .LinesPartiallyMatched _ non_matching_lines => non_matching_lines.length
  | _ => 0

/-- Rust `starts_with`, unfolded to its meaning: `b` is a front part of
`a`, that is, `a` extends `b` by some tail. -/
theorem starts_with_iff (a b : Str) : starts_with a b = true ↔ ∃ t, b ++ t = a := by
  have h : starts_with a b = true ↔ b <+: a := by simp [starts_with]
  exact h.trans Iff.rfl

/-- Unfolding `all_lines_parse` over a cons cell. -/
theorem all_lines_parse_cons (br cr : RE) (p : Str × Str) (rest : List (Str × Str)) :
    all_lines_parse br cr (p :: rest) =
      ((captures br p.1).isSome && ((captures cr p.2).isSome && all_lines_parse br cr rest)) := by
  simp [all_lines_parse, Bool.and_assoc]

/-- One step of the loop when both lines of the head pair parse: the pair is
counted as matching exactly when the Hash Compatibility Check accepts the
two extracted identifiers, otherwise its index is pushed. -/
theorem compareLoop_cons (br cr : RE) (pb pc : Str) (rest : List (Str × Str))
    (bcaps ccaps : Caps) (hb : captures br pb = some bcaps)
    (hc : captures cr pc = some ccaps) (i m : Nat) (acc : List Nat) :
    compareLoop br cr ((pb, pc) :: rest) i m acc =
      if pairCompat br cr (pb, pc) then
        compareLoop br cr rest (i + 1) (m + 1) acc
      else
        compareLoop br cr rest (i + 1) m (acc ++ [i]) := by
  have hbh : capture_get bcaps 1 = hashOf br pb := by simp [hashOf, hb]
  have hch : capture_get ccaps 1 = hashOf cr pc := by simp [hashOf, hc]
  simp only [compareLoop, hb, hc, hbh, hch, pairCompat, hashes_compatible]
  by_cases ha : starts_with (hashOf br pb) (hashOf cr pc) = true <;>
    by_cases hb2 : starts_with (hashOf cr pc) (hashOf br pb) = true <;>
      simp [ha, hb2]

/-- If some positional pair fails to parse on either side, the loop aborts
the whole file with `LineDidNotMatchPattern`, whatever its accumulators. -/
theorem compareLoop_of_fail (br cr : RE) (pairs : List (Str × Str)) :
    ∀ (i m : Nat) (acc : List Nat),
    (∃ p ∈ pairs, captures br p.1 = none ∨ captures cr p.2 = none) →
    compareLoop br cr pairs i m acc = .LineDidNotMatchPattern := by
  induction pairs with
  | nil => intro i m acc h; simp at h
  | cons q rest ih =>
    intro i m acc h
    obtain ⟨pb, pc⟩ := q
    cases hb : captures br pb with
    | none => simp [compareLoop, hb]
    | some bcaps =>
      cases hc : captures cr pc with
      | none => simp [compareLoop, hb, hc]
      | some ccaps =>
        have hrest : ∃ p ∈ rest, captures br p.1 = none ∨ captures cr p.2 = none := by
          rcases h with ⟨q, hq, hfail⟩
          rcases List.mem_cons.mp hq with rfl | hq'
          · simp [hb, hc] at hfail
          · exact ⟨q, hq', hfail⟩
        rw [compareLoop_cons br cr pb pc rest bcaps ccaps hb hc]
        split
        · exact ih _ _ _ hrest
        · exact ih _ _ _ hrest

/-- When every pair parses, the loop computes the compatible-pair count and
appends the indices of incompatible pairs to its accumulator. -/
theorem compareLoop_of_allParse (br cr : RE) (pairs : List (Str × Str))
    (h : all_lines_parse br cr pairs = true) :
    ∀ (i m : Nat) (acc : List Nat),
    compareLoop br cr pairs i m acc =
      if (acc ++ mismIdx br cr i pairs).isEmpty then
        .BlamesMatch (m + nCompat br cr pairs)
      else
        .LinesPartiallyMatched (m + nCompat br cr pairs) (acc ++ mismIdx br cr i pairs) := by
  induction pairs with
  | nil => intro i m acc; simp [compareLoop, mismIdx, nCompat]
  | cons q rest ih =>
    intro i m acc
    obtain ⟨pb, pc⟩ := q
    rw [all_lines_parse_cons] at h
    simp only [Bool.and_eq_true] at h
    obtain ⟨h1, h2, h3⟩ := h
    obtain ⟨bcaps, hb⟩ := Option.isSome_iff_exists.mp h1
    obtain ⟨ccaps, hc⟩ := Option.isSome_iff_exists.mp h2
    rw [compareLoop_cons br cr pb pc rest bcaps ccaps hb hc]
    by_cases hcompat : pairCompat br cr (pb, pc) = true
    · rw [if_pos hcompat, ih h3]
      simp [mismIdx, nCompat, hcompat, Nat.add_assoc]
    · have hcompat' : pairCompat br cr (pb, pc) = false := by simpa using hcompat
      rw [if_neg (by simp [hcompat']), ih h3]
      simp [mismIdx, nCompat, hcompat', List.append_assoc]

/-- Every index recorded by `mismIdx` is at least the starting offset. -/
theorem mismIdx_lower_bound (br cr : RE) (pairs : List (Str × Str)) :
    ∀ (i j : Nat), j ∈ mismIdx br cr i pairs → i ≤ j := by
  induction pairs with
  | nil => intro i j h; simp [mismIdx] at h
  | cons q rest ih =>
    intro i j h
    by_cases hq : pairCompat br cr q = true
    · simp only [mismIdx, if_pos hq] at h
      exact Nat.le_of_succ_le (ih (i + 1) j h)
    · simp only [mismIdx, if_neg hq, List.mem_cons] at h
      rcases h with rfl | h
      · exact Nat.le_refl j
      · exact Nat.le_of_succ_le (ih (i + 1) j h)

/-- The indices recorded by `mismIdx` are strictly increasing. -/
theorem mismIdx_sorted (br cr : RE) (pairs : List (Str × Str)) :
    ∀ i : Nat, List.Pairwise (fun a b => a < b) (mismIdx br cr i pairs) := by
  induction pairs with
  | nil => intro i; simp [mismIdx]
  | cons q rest ih =>
    intro i
    by_cases hq : pairCompat br cr q = true
    · simpa only [mismIdx, if_pos hq] using ih (i + 1)
    · simp only [mismIdx, if_neg hq]
      refine List.Pairwise.cons ?_ (ih (i + 1))
      intro j hj
      have := mismIdx_lower_bound br cr rest (i + 1) j hj
      omega

/-- `mismIdx` records exactly the offsets of the pairs the Hash
Compatibility Check rejects. -/
theorem mem_mismIdx (br cr : RE) (pairs : List (Str × Str)) :
    ∀ (i j : Nat), j ∈ mismIdx br cr i pairs ↔
      ∃ k p, pairs.get? k = some p ∧ j = i + k ∧ pairCompat br cr p = false := by
  induction pairs with
  | nil => intro i j; simp [mismIdx]
  | cons q rest ih =>
    intro i j
    by_cases hq : pairCompat br cr q = true
    · rw [show mismIdx br cr i (q :: rest) = mismIdx br cr (i + 1) rest by
        simp [mismIdx, hq]]
      rw [ih (i + 1) j]
      constructor
      · rintro ⟨k, p, hget, hj, hp⟩
        exact ⟨k + 1, p, by simpa using hget, by omega, hp⟩
      · rintro ⟨k, p, hget, hj, hp⟩
        cases k with
        | zero =>
          simp only [List.get?_cons_zero, Option.some.injEq] at hget
          rw [← hget, hq] at hp
          exact absurd hp (by simp)
        | succ k' =>
          exact ⟨k', p, by simpa using hget, by omega, hp⟩
    · have hq' : pairCompat br cr q = false := by simpa using hq
      rw [show mismIdx br cr i (q :: rest) = i :: mismIdx br cr (i + 1) rest by
        simp [mismIdx, hq']]
      rw [List.mem_cons, ih (i + 1) j]
      constructor
      · rintro (rfl | ⟨k, p, hget, hj, hp⟩)
        · exact ⟨0, q, by simp, by omega, hq'⟩
        · exact ⟨k + 1, p, by simpa using hget, by omega, hp⟩
      · rintro ⟨k, p, hget, hj, hp⟩
        cases k with
        | zero =>
          left; omega
        | succ k' =>
          right; exact ⟨k', p, by simpa using hget, by omega, hp⟩

/-- Matching pairs and rejected pairs partition the paired lines. -/
theorem nCompat_add_mismIdx_length (br cr : RE) (pairs : List (Str × Str)) :
    ∀ i : Nat, nCompat br cr pairs + (mismIdx br cr i pairs).length = pairs.length := by
  induction pairs with
  | nil => intro i; simp [mismIdx, nCompat]
  | cons q rest ih =>
    intro i
    by_cases hq : pairCompat br cr q = true
    · have := ih (i + 1)
      simp only [mismIdx, nCompat, if_pos hq, List.length_cons]
      omega
    · have := ih (i + 1)
      simp only [mismIdx, nCompat, if_neg hq, List.length_cons]
      omega

/-- A false `all_lines_parse` exhibits a failing pair. -/
theorem exists_fail_of_not_all_parse (br cr : RE) (pairs : List (Str × Str))
    (h : all_lines_parse br cr pairs = false) :
    ∃ p ∈ pairs, captures br p.1 = none ∨ captures cr p.2 = none := by
  induction pairs with
  | nil => simp [all_lines_parse] at h
  | cons q rest ih =>
    cases hb : captures br q.1 with
    | none => exact ⟨q, List.mem_cons_self q rest, Or.inl hb⟩
    | some bcaps =>
      cases hc : captures cr q.2 with
      | none => exact ⟨q, List.mem_cons_self q rest, Or.inr hc⟩
      | some ccaps =>
        have hrest : all_lines_parse br cr rest = false := by
          rw [all_lines_parse_cons, hb, hc] at h
          simpa using h
        obtain ⟨p, hp, hfail⟩ := ih hrest
        exact ⟨p, List.mem_cons_of_mem q hp, hfail⟩

/-- compare_two_blames once lengths agree: the loop on the zipped lines. -/
theorem compare_eq_loop (br cr : RE) (b c : List Str) (hlen : b.length = c.length) :
    compare_two_blames br cr b c = compareLoop br cr (b.zip c) 0 0 [] := by
  simp [compare_two_blames, hlen]

/-- Full characterization of the comparator when lengths agree and every
line parses: `Matched` with the compatible count when no index is rejected,
otherwise `PartiallyMatched` carrying the rejected indices. -/
theorem compare_char (br cr : RE) (b c : List Str) (hlen : b.length = c.length)
    (hpar : all_lines_parse br cr (b.zip c) = true) :
    compare_two_blames br cr b c =
      if (mismIdx br cr 0 (b.zip c)).isEmpty then
        Outcome.BlamesMatch (nCompat br cr (b.zip c))
      else
        Outcome.LinesPartiallyMatched (nCompat br cr (b.zip c)) (mismIdx br cr 0 (b.zip c)) := by
  rw [compare_eq_loop br cr b c hlen, compareLoop_of_allParse br cr (b.zip c) hpar 0 0 []]
  simp

/-- A parse failure anywhere classifies the whole file as
`LineDidNotMatchPattern`. -/
theorem compare_of_parse_fail (br cr : RE) (b c : List Str) (hlen : b.length = c.length)
    (hfail : ∃ p ∈ b.zip c, captures br p.1 = none ∨ captures cr p.2 = none) :
    compare_two_blames br cr b c = Outcome.LineDidNotMatchPattern := by
  rw [compare_eq_loop br cr b c hlen]
  exact compareLoop_of_fail br cr (b.zip c) 0 0 [] hfail

/-- C1: when the two captured outputs have different numbers of lines the
comparator returns `DifferingLineNumbers` (`LineCountMismatch`), for every
pair of formats and regardless of any line's content — the result does not
depend on the patterns, so no per-line parsing or comparison takes place. -/
theorem C1_differing_line_numbers (br cr : RE) (b c : List Str)
    (h : b.length ≠ c.length) :
    compare_two_blames br cr b c = Outcome.DifferingLineNumbers := by
  simp [compare_two_blames, h]

/-- Witness for C1 at a 1-line versus 0-line input. -/
theorem C1_differing_line_numbers_witness :
    compare_two_blames GIT_BLAME_RE GIX_BLAME_RE [ str "x"] [] =
      Outcome.DifferingLineNumbers :=
  C1_differing_line_numbers GIT_BLAME_RE GIX_BLAME_RE [ str "x"] [] (by decide)

/-- C2: for non-empty lowercase-hex revision identifiers, the Hash
Compatibility Check accepts exactly when one identifier is a front part of
the other (equal strings included); the check is symmetric; and equal-length
unequal identifiers are rejected. -/
theorem C2_hash_compatibility (a b : Str)
    (ha : isHexStr a = true) (hb : isHexStr b = true) :
    (hashes_compatible a b = true ↔ ((∃ t, a ++ t = b) ∨ (∃ t, b ++ t = a))) ∧
    hashes_compatible a b = hashes_compatible b a ∧
    (a.length = b.length → a ≠ b → hashes_compatible a b = false) := by
  refine ⟨?_, ?_, ?_⟩
  · rw [hashes_compatible, Bool.or_eq_true, starts_with_iff, starts_with_iff]
    tauto
  · rw [hashes_compatible, hashes_compatible, Bool.or_comm]
  · intro hlen hne
    cases hco : hashes_compatible a b with
    | false => rfl
    | true =>
      exfalso
      rw [hashes_compatible, Bool.or_eq_true, starts_with_iff, starts_with_iff] at hco
      rcases hco with ⟨t, ht⟩ | ⟨t, ht⟩
      · have hl : t.length = 0 := by
          have := congrArg List.length ht
          simp only [List.length_append] at this
          omega
        rw [List.length_eq_zero] at hl
        subst hl
        simp only [List.append_nil] at ht
        exact hne ht.symm
      · have hl : t.length = 0 := by
          have := congrArg List.length ht
          simp only [List.length_append] at this
          omega
        rw [List.length_eq_zero] at hl
        subst hl
        simp only [List.append_nil] at ht
        exact hne ht

/-- Witness for C2 at the hex identifiers abc1 and abc123. -/
theorem C2_hash_compatibility_witness :
    isHexStr (str "abc1") = true ∧ isHexStr (str "abc123") = true ∧
    ((hashes_compatible (str "abc1") (str "abc123") = true ↔
        ((∃ t, str "abc1" ++ t = str "abc123") ∨ (∃ t, str "abc123" ++ t = str "abc1"))) ∧
      hashes_compatible (str "abc1") (str "abc123") =
        hashes_compatible (str "abc123") (str "abc1") ∧
      ((str "abc1").length = (str "abc123").length → str "abc1" ≠ str "abc123" →
        hashes_compatible (str "abc1") (str "abc123") = false)) :=
  ⟨by decide, by decide,
    C2_hash_compatibility (str "abc1") (str "abc123") (by decide) (by decide)⟩

/-- C3: with equal line counts, a line that fails its format's pattern on
either side makes the whole file `LineDidNotMatchPattern` (`ParseFailure`);
no matched-line count or partial result is reported for that file. -/
theorem C3_parse_failure_aborts (br cr : RE) (b c : List Str)
    (hlen : b.length = c.length)
    (hfail : ∃ p ∈ b.zip c, captures br p.1 = none ∨ captures cr p.2 = none) :
    compare_two_blames br cr b c = Outcome.LineDidNotMatchPattern :=
  compare_of_parse_fail br cr b c hlen hfail

/-- Witness for C3: the first pair parses and matches, the second candidate
line has no parsable record, and the whole file is still a parse failure. -/
theorem C3_parse_failure_aborts_witness :
    compare_two_blames GIT_BLAME_RE GIX_BLAME_RE
      [ str "abc123 (Alice 1) foo", str "def456 (Bob 2) bar"]
      [ str "abc1 1 1 foo", str "no hash here"] =
      Outcome.LineDidNotMatchPattern :=
  C3_parse_failure_aborts GIT_BLAME_RE GIX_BLAME_RE
    [ str "abc123 (Alice 1) foo", str "def456 (Bob 2) bar"]
    [ str "abc1 1 1 foo", str "no hash here"]
    (by decide)
    ⟨(str "def456 (Bob 2) bar", str "no hash here"), by decide, Or.inr (by decide)⟩

/-- C8: the spec's worked example — reference stream
`["abc123 (Alice 1) foo", "def456 (Bob 2) bar"]` against candidate stream
`["abc1 1 1 foo", "deadbeef 2 2 bar"]` — yields
`PartiallyMatched{matchingLineCount 1, mismatchedLineIndices [1]}`. -/
theorem C8_worked_example :
    compare_two_blames GIT_BLAME_RE GIX_BLAME_RE
      [ str "abc123 (Alice 1) foo", str "def456 (Bob 2) bar"]
      [ str "abc1 1 1 foo", str "deadbeef 2 2 bar"] =
      Outcome.LinesPartiallyMatched 1 [1] := by
  decide

/-- C10: the patterns are unanchored — a line that does not begin with a
revision identifier (its first character is not a hex digit) but embeds a
well-formed reference-format record later is parsed successfully, with the
embedded identifier extracted instead of a parse failure. -/
theorem C10_patterns_unanchored :
    parseHash GIT_BLAME_RE (str "!!! abc123 (Alice 1) foo") = some (str "abc123") ∧
    hexDigit '!' = false := by
  decide

/-- C4: with equal line counts and every line parsed, the outcome is
exactly one of `BlamesMatch` and `LinesPartiallyMatched`: an empty set of
rejected positions yields `BlamesMatch` with the matching-line count, and
`LinesPartiallyMatched` is never produced with an empty mismatch list. -/
theorem C4_matched_partial_exclusive (br cr : RE) (b c : List Str)
    (hlen : b.length = c.length)
    (hpar : all_lines_parse br cr (b.zip c) = true) :
    (mismIdx br cr 0 (b.zip c) = [] →
      compare_two_blames br cr b c = Outcome.BlamesMatch (nCompat br cr (b.zip c))) ∧
    (∀ k l, compare_two_blames br cr b c = Outcome.LinesPartiallyMatched k l → l ≠ []) ∧
    ((∃ k, compare_two_blames br cr b c = Outcome.BlamesMatch k) ∨
      (∃ k l, compare_two_blames br cr b c = Outcome.LinesPartiallyMatched k l)) := by
  rw [compare_char br cr b c hlen hpar]
  by_cases hm : (mismIdx br cr 0 (b.zip c)).isEmpty = true
  · rw [if_pos hm]
    exact ⟨fun _ => rfl, fun k l hkl => Outcome.noConfusion hkl, Or.inl ⟨_, rfl⟩⟩
  · rw [if_neg hm]
    have hne : mismIdx br cr 0 (b.zip c) ≠ [] := by
      intro hnil
      exact hm (by simp [hnil])
    refine ⟨fun hnil => absurd hnil hne, ?_, Or.inr ⟨_, _, rfl⟩⟩
    intro k l hkl
    injection hkl with h1 h2
    rw [← h2]
    exact hne

/-- Witness for C4 at a one-line matching input. -/
theorem C4_matched_partial_exclusive_witness :
    (mismIdx GIT_BLAME_RE GIX_BLAME_RE 0
        ([ str "abc123 (Alice 1) foo"].zip [ str "abc1 1 1 foo"]) = [] →
      compare_two_blames GIT_BLAME_RE GIX_BLAME_RE
        [ str "abc123 (Alice 1) foo"] [ str "abc1 1 1 foo"] =
        Outcome.BlamesMatch (nCompat GIT_BLAME_RE GIX_BLAME_RE
          ([ str "abc123 (Alice 1) foo"].zip [ str "abc1 1 1 foo"]))) ∧
    (∀ k l, compare_two_blames GIT_BLAME_RE GIX_BLAME_RE
        [ str "abc123 (Alice 1) foo"] [ str "abc1 1 1 foo"] =
        Outcome.LinesPartiallyMatched k l → l ≠ []) ∧
    ((∃ k, compare_two_blames GIT_BLAME_RE GIX_BLAME_RE
        [ str "abc123 (Alice 1) foo"] [ str "abc1 1 1 foo"] = Outcome.BlamesMatch k) ∨
      (∃ k l, compare_two_blames GIT_BLAME_RE GIX_BLAME_RE
        [ str "abc123 (Alice 1) foo"] [ str "abc1 1 1 foo"] =
        Outcome.LinesPartiallyMatched k l)) :=
  C4_matched_partial_exclusive GIT_BLAME_RE GIX_BLAME_RE
    [ str "abc123 (Alice 1) foo"] [ str "abc1 1 1 foo"] (by decide) (by decide)

/-- C5: any `LinesPartiallyMatched` outcome carries a strictly increasing
list of indices holding exactly the 0-based positions whose parsed pair of
revision identifiers the Hash Compatibility Check rejected — no other
positions and no duplicates. -/
theorem C5_mismatch_indices (br cr : RE) (b c : List Str) (k : Nat) (l : List Nat)
    (h : compare_two_blames br cr b c = Outcome.LinesPartiallyMatched k l) :
    List.Pairwise (fun x y => x < y) l ∧
    (∀ j, j ∈ l ↔ ∃ pb pc hb hc,
      (b.zip c).get? j = some (pb, pc) ∧
      parseHash br pb = some hb ∧ parseHash cr pc = some hc ∧
      hashes_compatible hb hc = false) := by
  by_cases hlen : b.length = c.length
  case neg =>
    rw [C1_differing_line_numbers br cr b c hlen] at h
    exact Outcome.noConfusion h
  by_cases hpar : all_lines_parse br cr (b.zip c) = true
  case neg =>
    have hfalse : all_lines_parse br cr (b.zip c) = false := by
      cases hx : all_lines_parse br cr (b.zip c)
      · rfl
      · exact absurd hx hpar
    rw [compare_of_parse_fail br cr b c hlen
      (exists_fail_of_not_all_parse br cr (b.zip c) hfalse)] at h
    exact Outcome.noConfusion h
  rw [compare_char br cr b c hlen hpar] at h
  by_cases hm : (mismIdx br cr 0 (b.zip c)).isEmpty = true
  case pos =>
    rw [if_pos hm] at h
    exact Outcome.noConfusion h
  rw [if_neg hm] at h
  injection h with h1 h2
  subst h2
  refine ⟨mismIdx_sorted br cr (b.zip c) 0, ?_⟩
  intro j
  rw [mem_mismIdx br cr (b.zip c) 0 j]
  constructor
  · rintro ⟨kk, p, hget, hj, hp⟩
    obtain ⟨pb, pc⟩ := p
    obtain rfl : j = kk := by omega
    have hmem : (pb, pc) ∈ b.zip c := List.get?_mem hget
    simp only [all_lines_parse, List.all_eq_true] at hpar
    have hps := hpar (pb, pc) hmem
    simp only [Bool.and_eq_true] at hps
    obtain ⟨bcaps, hbcaps⟩ := Option.isSome_iff_exists.mp hps.1
    obtain ⟨ccaps, hccaps⟩ := Option.isSome_iff_exists.mp hps.2
    refine ⟨pb, pc, capture_get bcaps 1, capture_get ccaps 1, hget, ?_, ?_, ?_⟩
    · simp [parseHash, hbcaps]
    · simp [parseHash, hccaps]
    · simpa [pairCompat, hashOf, hbcaps, hccaps] using hp
  · rintro ⟨pb, pc, hb, hc, hget, hpb, hpc, hcompat⟩
    refine ⟨j, (pb, pc), hget, by omega, ?_⟩
    obtain ⟨bcaps, hbc, hbeq⟩ := Option.map_eq_some'.mp hpb
    obtain ⟨ccaps, hcc, hceq⟩ := Option.map_eq_some'.mp hpc
    simp [pairCompat, hashOf, hbc, hcc, hbeq, hceq, hcompat]

/-- Witness for C5 at a two-line input whose second pair disagrees. -/
theorem C5_mismatch_indices_witness :
    List.Pairwise (fun x y => x < y) [1] ∧
    (∀ j, j ∈ ([1] : List Nat) ↔ ∃ pb pc hb hc,
      ([ str "aa (X 1) t", str "bb (Y 2) u"].zip
        [ str "aa 1 1 t", str "cc 2 2 u"]).get? j = some (pb, pc) ∧
      parseHash GIT_BLAME_RE pb = some hb ∧ parseHash GIX_BLAME_RE pc = some hc ∧
      hashes_compatible hb hc = false) :=
  C5_mismatch_indices GIT_BLAME_RE GIX_BLAME_RE
    [ str "aa (X 1) t", str "bb (Y 2) u"] [ str "aa 1 1 t", str "cc 2 2 u"]
    1 [1] (by decide)

/-- C9: whenever the comparator reports `BlamesMatch` or
`LinesPartiallyMatched`, the two streams have a common line count, and the
matching-line count plus the number of mismatched indices equals it — every
positionally paired line is counted exactly once. -/
theorem C9_counts_partition (br cr : RE) (b c : List Str) :
    (∀ k, compare_two_blames br cr b c = Outcome.BlamesMatch k →
      b.length = c.length ∧ k = b.length) ∧
    (∀ k l, compare_two_blames br cr b c = Outcome.LinesPartiallyMatched k l →
      b.length = c.length ∧ k + l.length = b.length) := by
  by_cases hlen : b.length = c.length
  case neg =>
    rw [C1_differing_line_numbers br cr b c hlen]
    exact ⟨fun k hk => Outcome.noConfusion hk, fun k l hkl => Outcome.noConfusion hkl⟩
  by_cases hpar : all_lines_parse br cr (b.zip c) = true
  case neg =>
    have hfalse : all_lines_parse br cr (b.zip c) = false := by
      cases hx : all_lines_parse br cr (b.zip c)
      · rfl
      · exact absurd hx hpar
    rw [compare_of_parse_fail br cr b c hlen
      (exists_fail_of_not_all_parse br cr (b.zip c) hfalse)]
    exact ⟨fun k hk => Outcome.noConfusion hk, fun k l hkl => Outcome.noConfusion hkl⟩
  have hzip : (b.zip c).length = b.length := by
    rw [List.length_zip]
    omega
  have hpart := nCompat_add_mismIdx_length br cr (b.zip c) 0
  rw [compare_char br cr b c hlen hpar]
  by_cases hm : (mismIdx br cr 0 (b.zip c)).isEmpty = true
  · rw [if_pos hm]
    have hmlen : (mismIdx br cr 0 (b.zip c)).length = 0 := by
      rw [List.isEmpty_iff] at hm
      simp [hm]
    refine ⟨?_, fun k l hkl => Outcome.noConfusion hkl⟩
    intro k hk
    injection hk with h1
    omega
  · rw [if_neg hm]
    refine ⟨fun k hk => Outcome.noConfusion hk, ?_⟩
    intro k l hkl
    injection hkl with h1 h2
    subst h2
    omega

/-- Witness for C9 at a two-line input with one mismatch. -/
theorem C9_counts_partition_witness :
    ([ str "aa (X 1) t", str "bb (Y 2) u"] : List Str).length =
      ([ str "aa 1 1 t", str "cc 2 2 u"] : List Str).length ∧
    1 + ([1] : List Nat).length =
      ([ str "aa (X 1) t", str "bb (Y 2) u"] : List Str).length :=
  (C9_counts_partition GIT_BLAME_RE GIX_BLAME_RE
    [ str "aa (X 1) t", str "bb (Y 2) u"] [ str "aa 1 1 t", str "cc 2 2 u"]).2
    1 [1] (by decide)

/-- The aggregation fold from an arbitrary starting accumulator. -/
theorem line_counters_foldl (os : List Outcome) :
    ∀ (a b : Nat), os.foldl line_counters_step (a, b) =
      (a + (os.map spec_matching_lines).sum, b + (os.map spec_mismatched_lines).sum) := by
  induction os with
  | nil => intro a b; simp
  | cons o rest ih =>
    intro a b
    cases o <;>
      simp [line_counters_step, spec_matching_lines, spec_mismatched_lines, ih,
        Nat.add_assoc]

/-- C6: the aggregator's matching-line counter is the sum of the
matching-line counts of the `BlamesMatch` and `LinesPartiallyMatched`
outcomes, its mismatched-line counter is the sum of the mismatch-list
lengths of the `LinesPartiallyMatched` outcomes only, and
`DifferingLineNumbers`, `LineDidNotMatchPattern` and `FailedToRunExecutable`
outcomes contribute zero to both. -/
theorem C6_aggregation (outcomes : List Outcome) :
    line_counters outcomes =
      ((outcomes.map spec_matching_lines).sum,
        (outcomes.map spec_mismatched_lines).sum) := by
  rw [line_counters, line_counters_foldl]
  simp

/-- C7 counterexample: a run with a single `DifferingLineNumbers` outcome
has both aggregated line counters zero, yet the summary branch — and with
it the percentage expression — is still reached. -/
theorem C7_counterexample_zero_denominator :
    line_counters [Outcome.DifferingLineNumbers] = (0, 0) ∧
    percentage_is_computed [Outcome.DifferingLineNumbers] = true := by
  decide

/-- C7 amended: the percentage expression is computed exactly when at least
one outcome is a non-match — including runs whose line counters are both
zero, where the f32 quotient is NaN rather than being suppressed — and,
whenever the denominator is nonzero, it equals
matchingLines / (matchingLines + mismatchedLines) × 100. -/
theorem C7_percentage_guard (outcomes : List Outcome) :
    (percentage_is_computed outcomes = true ↔
      ∃ o ∈ outcomes, is_blames_match o = false) ∧
    (∀ m n : Nat, m + n ≠ 0 →
      percentage m (m + n) = (m : ℚ) / ((m : ℚ) + (n : ℚ)) * 100) := by
  constructor
  · have hle : number_of_matches outcomes ≤ outcomes.length :=
      List.length_filter_le _ outcomes
    have hlt : number_of_matches outcomes < outcomes.length ↔
        ∃ o ∈ outcomes, is_blames_match o = false := by
      rw [number_of_matches]
      rw [List.length_filter_lt_length_iff_exists]
      simp
    rw [percentage_is_computed, number_of_non_matches]
    rw [bne_iff_ne]
    constructor
    · intro hne
      exact hlt.mp (by omega)
    · intro hex
      have := hlt.mpr hex
      omega
  · intro m n hmn
    rw [percentage]
    push_cast
    ring

/-- Witness for C7 amended: instantiated at a single non-matching outcome
and at the spec's aggregate counters 18 matching / 1 mismatched. -/
theorem C7_percentage_guard_witness :
    (percentage_is_computed [Outcome.DifferingLineNumbers] = true ↔
      ∃ o ∈ [Outcome.DifferingLineNumbers], is_blames_match o = false) ∧
    percentage 18 (18 + 1) = (18 : ℚ) / ((18 : ℚ) + (1 : ℚ)) * 100 :=
  ⟨(C7_percentage_guard [Outcome.DifferingLineNumbers]).1,
    (C7_percentage_guard [Outcome.DifferingLineNumbers]).2 18 1 (by decide)⟩
